import Mathlib

/-!
Verification of the 2D rigid-body physics and SAT collision core of the
repository (src/src/main.rs) against its specification.

Numbers: the program computes with IEEE-754 binary64.  We model a binary64
value as `EF`: an exact rational (rounding of finite arithmetic is not
modelled), a signed infinity, or NaN.  The sign of zero is collapsed into
the single finite zero; in this program the sign of a zero only ever
influences the sign of an infinity obtained by dividing by it, and every
branch taken on such an infinity tests only whether the value is infinite,
so the collapse does not change any control flow.
-/

namespace Fma

/-- Model of an IEEE-754 binary64 value: exact finite rational, one of the
two infinities, or NaN. -/
inductive EF where
  | fin (q : ℚ)
  | pinf
  | ninf
  | nan
deriving DecidableEq

/-- IEEE negation. -/
def EF.neg : EF → EF
  | .fin q => .fin (-q)
  | .pinf => .ninf
  | .ninf => .pinf
  | .nan => .nan

/-- IEEE addition (finite part exact). -/
def EF.add : EF → EF → EF
  | .nan, _ => .nan
  | _, .nan => .nan
  | .pinf, .ninf => .nan
  | .ninf, .pinf => .nan
  | .pinf, _ => .pinf
  | _, .pinf => .pinf
  | .ninf, _ => .ninf
  | _, .ninf => .ninf
  | .fin a, .fin b => .fin (a + b)

/-- IEEE subtraction. -/
def EF.sub (a b : EF) : EF := EF.add a (EF.neg b)

/-- IEEE multiplication (finite part exact). -/
def EF.mul : EF → EF → EF
  | .nan, _ => .nan
  | _, .nan => .nan
  | .pinf, .pinf => .pinf
  | .pinf, .ninf => .ninf
  | .ninf, .pinf => .ninf
  | .ninf, .ninf => .pinf
  | .pinf, .fin q => if q = 0 then .nan else if 0 < q then .pinf else .ninf
  | .fin q, .pinf => if q = 0 then .nan else if 0 < q then .pinf else .ninf
  | .ninf, .fin q => if q = 0 then .nan else if 0 < q then .ninf else .pinf
  | .fin q, .ninf => if q = 0 then .nan else if 0 < q then .ninf else .pinf
  | .fin a, .fin b => .fin (a * b)

/-- IEEE division (finite part exact; division of a nonzero finite value by
zero gives an infinity, NaN arises from 0/0 and inf/inf). -/
def EF.div : EF → EF → EF
  | .nan, _ => .nan
  | _, .nan => .nan
  | .pinf, .pinf => .nan
  | .pinf, .ninf => .nan
  | .ninf, .pinf => .nan
  | .ninf, .ninf => .nan
  | .pinf, .fin q => if 0 ≤ q then .pinf else .ninf
  | .ninf, .fin q => if 0 ≤ q then .ninf else .pinf
  | .fin _, .pinf => .fin 0
  | .fin _, .ninf => .fin 0
  | .fin a, .fin b =>
      if b = 0 then (if a = 0 then .nan else if 0 < a then .pinf else .ninf)
      else .fin (a / b)

/-- IEEE absolute value. -/
def EF.abs : EF → EF
  | .fin q => .fin |q|
  | .nan => .nan
  | _ => .pinf

/-- Rust f64 method is_infinite. -/
def EF.isInfinite : EF → Bool
  | .pinf => true
  | .ninf => true
  | _ => false

/-- IEEE comparison lt: false whenever an operand is NaN. -/
def EF.lt : EF → EF → Bool
  | .nan, _ => false
  | _, .nan => false
  | .fin a, .fin b => decide (a < b)
  | .ninf, .ninf => false
  | .ninf, _ => true
  | _, .ninf => false
  | .pinf, _ => false
  | .fin _, .pinf => true

/-- IEEE comparison le: false whenever an operand is NaN. -/
def EF.le : EF → EF → Bool
  | .nan, _ => false
  | _, .nan => false
  | .fin a, .fin b => decide (a ≤ b)
  | .ninf, _ => true
  | _, .ninf => false
  | _, .pinf => true
  | .pinf, .fin _ => false

/-- IEEE comparison ge, as used by the Rust operator. -/
def EF.ge (a b : EF) : Bool := EF.le b a

/-- IEEE equality comparison: false whenever an operand is NaN. -/
def EF.eqf : EF → EF → Bool
  | .nan, _ => false
  | _, .nan => false
  | .fin a, .fin b => decide (a = b)
  | .pinf, .pinf => true
  | .ninf, .ninf => true
  | _, _ => false

/-- Rust f64 method min: ignores a NaN operand, otherwise the smaller. -/
def EF.min : EF → EF → EF
  | .nan, b => b
  | a, .nan => a
  | a, b => if EF.lt a b then a else b

/-- Rust f64 method max: ignores a NaN operand, otherwise the larger. -/
def EF.max : EF → EF → EF
  | .nan, b => b
  | a, .nan => a
  | a, b => if EF.lt a b then b else a

/-- The exact value of the Rust constant f64 EPSILON, that is 2 to the -52.
Written as a plain numeral fraction so it evaluates cheaply. -/
def EPSILON : ℚ := 1 / 4503599627370496

/-- The exact value of the Rust constant f64 MAX, that is
(2 to the 53 minus 1) times 2 to the 971, written as a plain numeral. -/
def F64MAX : ℚ := 179769313486231570814527423731704356798070567525844996598917476803157260780028538760589558632766878171540458953514382464234321326889464182768467546703537516986049910576551282076245490090389328944075868508455133942304583236903222948165808559332123348274797826204144723168738177180919299881250404026184124858368

/-- The exact value of the Rust constant f64 MIN, the negation of MAX. -/
def F64MIN : ℚ := -F64MAX

/-- 2D point in world-space meters (struct Position in the source). -/
structure Position where
  x : EF
  y : EF
deriving DecidableEq

/-- 2D velocity or acceleration (struct Vector in the source). -/
structure Vector where
  x : EF
  y : EF
deriving DecidableEq

/-- Constructor shorthand fn v of the source. -/
def v (x y : EF) : Vector := ⟨x, y⟩

/-- Constructor shorthand fn pos of the source. -/
def pos (x y : EF) : Position := ⟨x, y⟩

/-- struct ConvexBody of the source. -/
structure ConvexBody where
  mass : EF
  mesh : List Position
  acceleration : Vector
  velocity : Vector
  fixed : Bool
  report_collision : Bool
deriving DecidableEq

/-- ConvexBody::still_body. -/
def ConvexBody.still_body (m : EF) (mesh : List Position) : ConvexBody :=
  { mass := m
    mesh := mesh
    acceleration := v (.fin 0) (.fin 0)
    velocity := v (.fin 0) (.fin 0)
    fixed := false
    report_collision := false }

/-- ConvexBody::fixed_body. -/
def ConvexBody.fixed_body (mesh : List Position) : ConvexBody :=
  { mass := .fin 0
    mesh := mesh
    acceleration := v (.fin 0) (.fin 0)
    velocity := v (.fin 0) (.fin 0)
    fixed := true
    report_collision := false }

/-- ConvexBody::apply_force: accumulates force divided by mass into the
acceleration, with no guard on the fixed flag or on a zero mass. -/
def ConvexBody.apply_force (b : ConvexBody) (fx fy : EF) : ConvexBody :=
  { b with
      acceleration := v (EF.add b.acceleration.x (EF.div fx b.mass))
                        (EF.add b.acceleration.y (EF.div fy b.mass)) }

/-- ConvexBody::set_resulting_force: overwrites the acceleration with the
force divided by mass, with no guard on the fixed flag or on a zero mass. -/
def ConvexBody.set_resulting_force (b : ConvexBody) (fx fy : EF) : ConvexBody :=
  { b with acceleration := v (EF.div fx b.mass) (EF.div fy b.mass) }

/-- struct Engine of the source: the owned bodies and the gravitational
acceleration ga. -/
structure Engine where
  bodies : List ConvexBody
  ga : EF
deriving DecidableEq

/-- Engine::create. -/
def Engine.create (g : EF) : Engine := ⟨[], g⟩

/-- Engine::add_body. -/
def Engine.add_body (e : Engine) (b : ConvexBody) : Engine :=
  { e with bodies := e.bodies ++ [b] }

/-- Engine::update_body_position: the integration step applied to one body.
Mirrors the Rust function, which mutates the body in place and returns
whether the displacement was nonzero; here the updated body is returned
together with that Bool. -/
def Engine.update_body_position (body : ConvexBody) (ga dt : EF) : ConvexBody × Bool :=
  let ax := body.acceleration.x
  let ay := EF.sub body.acceleration.y ga
  let vx := EF.add body.velocity.x (EF.mul ax dt)
  let vy := EF.add body.velocity.y (EF.mul ay dt)
  let sx := EF.mul (EF.div dt (.fin 2)) (EF.add vx body.velocity.x)
  let sy := EF.mul (EF.div dt (.fin 2)) (EF.add vy body.velocity.y)
  ({ body with
      velocity := v vx vy
      mesh := body.mesh.map fun p => pos (EF.add p.x sx) (EF.add p.y sy) },
   !EF.eqf sx (.fin 0) || !EF.eqf sy (.fin 0))

/-- Projects point position onto a line through the origin with gradient
line_gradient (fn project of the source). -/
def project (position : Position) (line_gradient : EF) : Position :=
  let p := position
  let a := line_gradient
  if a.isInfinite then
    pos (.fin 0) p.y
  else if EF.lt a.abs (.fin EPSILON) then
    pos p.x (.fin 0)
  else
    let a_orth := EF.div (.fin (-1)) a
    let b_orth := EF.sub p.y (EF.mul a_orth p.x)
    let projected_x := EF.div (EF.neg b_orth) (EF.sub a_orth a)
    let projected_y := EF.mul a projected_x
    pos projected_x projected_y

/-- itertools circular_tuple_windows for pairs: consecutive elements with
wraparound of the last element to the first; a singleton list yields the
single pair of the element with itself, the empty list yields nothing. -/
def circular_tuple_windows : List α → List (α × α)
  | [] => []
  | x :: xs => List.zip (x :: xs) (xs ++ [x])

/-- itertools tuple_windows for pairs: consecutive elements, no wraparound. -/
def tuple_windows : List α → List (α × α)
  | x :: y :: xs => (x, y) :: tuple_windows (y :: xs)
  | _ => []

/-- fn check_for_separating_axis of the source.  Despite its name, the
implementation returns true exactly when the projected extents of the two
shapes overlap on every axis derived from the edges of shape1, that is when
NO separating axis was found among those axes. -/
def check_for_separating_axis (shape1 shape2 : List Position) : Bool :=
  (circular_tuple_windows shape1).all fun pp =>
    let p1 := pp.fst
    let p2 := pp.snd
    let a := EF.div (EF.sub p1.y p2.y) (EF.sub p1.x p2.x)
    let a_orth := EF.div (.fin (-1)) a
    let shape1_projections := shape1.map fun p => project p a_orth
    let shape2_projections := shape2.map fun p => project p a_orth
    let shape1_min := shape1_projections.foldl
      (fun min_p p => pos (EF.min min_p.x p.x) (EF.min min_p.y p.y))
      (pos (.fin F64MAX) (.fin F64MAX))
    let shape1_max := shape1_projections.foldl
      (fun max_p p => pos (EF.max max_p.x p.x) (EF.max max_p.y p.y))
      (pos (.fin F64MIN) (.fin F64MIN))
    let shape2_min := shape2_projections.foldl
      (fun min_p p => pos (EF.min min_p.x p.x) (EF.min min_p.y p.y))
      (pos (.fin F64MAX) (.fin F64MAX))
    let shape2_max := shape2_projections.foldl
      (fun max_p p => pos (EF.max max_p.x p.x) (EF.max max_p.y p.y))
      (pos (.fin F64MIN) (.fin F64MIN))
    (EF.ge shape1_max.x shape2_min.x && EF.ge shape2_max.x shape1_min.x) &&
      (EF.ge shape1_max.y shape2_min.y && EF.ge shape2_max.y shape1_min.y)

/-- fn collided of the source: the two-pass SAT predicate. -/
def collided (shape1 shape2 : List Position) : Bool :=
  check_for_separating_axis shape1 shape2 && check_for_separating_axis shape2 shape1

/-- Engine::tick, body-motion part: every body, fixed or not, is passed to
update_body_position. -/
def Engine.tick (e : Engine) (dt : EF) : Engine :=
  { e with bodies := e.bodies.map fun b => (Engine.update_body_position b e.ga dt).fst }

/-- The local value collisions computed inside Engine::tick after the bodies
have moved.  The Rust code takes the cartesian product of the body vector
with itself, keeps the pairs whose two members have distinct addresses
(equivalently, distinct indices in the vector), and keeps a pair exactly
when check_for_separating_axis on the two meshes returns false.  Pairs are
modelled by the indices of the two bodies. -/
def Engine.tick_collisions (e : Engine) (dt : EF) : List (Nat × Nat) :=
  let moved := (Engine.tick e dt).bodies
  (((List.range moved.length).product (List.range moved.length)).filter
      fun ij => ij.fst != ij.snd).filter
    fun ij =>
      !check_for_separating_axis
        ((moved.getD ij.fst (ConvexBody.fixed_body [])).mesh)
        ((moved.getD ij.snd (ConvexBody.fixed_body [])).mesh)

/-- fn partition_terrain of the source. -/
def partition_terrain (terrain : List Position) : List (List Position) :=
  (tuple_windows terrain).map fun pp =>
    [pp.fst, pp.snd,
     pos pp.snd.x (EF.sub pp.snd.y (.fin 10)),
     pos pp.fst.x (EF.sub pp.fst.y (.fin 10))]

/-- Triangle 1 of the source tests. -/
def T1 : List Position := [pos (.fin 1) (.fin 1), pos (.fin 3) (.fin 1), pos (.fin 2) (.fin 3)]

/-- Triangle 2 of the source tests: bounding extent disjoint from T1. -/
def T2 : List Position := [pos (.fin 3) (.fin 3), pos (.fin 4) (.fin 1), pos (.fin 5) (.fin 3)]

/-- Triangle 3 of the source tests: shares exactly one edge with T1. -/
def T3 : List Position := [pos (.fin 2) (.fin 3), pos (.fin 3) (.fin 1), pos (.fin 4) (.fin 3)]

/-- Triangle 4 of the source tests: interior overlap with T1. -/
def T4 : List Position := [pos (.fin 2) (.fin 2), pos (.fin 1) (.fin 4), pos (.fin 3) (.fin 4)]

/-- The terrain sample sequence of the source test partition_terrain_test. -/
def TERRAIN4 : List Position :=
  [pos (.fin 0) (.fin 5), pos (.fin 1) (.fin 6), pos (.fin 2) (.fin 4), pos (.fin 3) (.fin 4)]

/-- An engine holding a single fixed body, gravity 10. -/
def fixedE : Engine := ⟨[ConvexBody.fixed_body [pos (.fin 0) (.fin 0)]], .fin 10⟩

/-- An engine holding the two disjoint test triangles as bodies, gravity 0. -/
def satE : Engine :=
  ⟨[ConvexBody.still_body (.fin 10) T1, ConvexBody.still_body (.fin 10) T2], .fin 0⟩

/-- The engine of the source test create_still_body: a still body of mass 10
with a single-vertex mesh at (100, 100), gravity 10. -/
def stillE : Engine :=
  ⟨[ConvexBody.still_body (.fin 10) [pos (.fin 100) (.fin 100)]], .fin 10⟩

/-- An engine holding exactly one body. -/
def oneBodyE : Engine :=
  ⟨[ConvexBody.still_body (.fin 10) [pos (.fin 0) (.fin 0)]], .fin 10⟩

/-- A fixed body used as a concrete input. -/
def fixedB : ConvexBody := ConvexBody.fixed_body [pos (.fin 0) (.fin 0)]

/-- A sequence of apply_force calls folded over a body, used to express
properties over every prior sequence of force applications. -/
def apply_forces (b : ConvexBody) (fs : List (EF × EF)) : ConvexBody :=
  fs.foldl (fun acc f => acc.apply_force f.fst f.snd) b

/-- Simp lemma: EF addition on finite values. -/
theorem EF.add_fin (a b : ℚ) : EF.add (.fin a) (.fin b) = .fin (a + b) := rfl

/-- Simp lemma: EF negation on finite values. -/
theorem EF.neg_fin (a : ℚ) : EF.neg (.fin a) = .fin (-a) := rfl

/-- Simp lemma: EF subtraction on finite values. -/
theorem EF.sub_fin (a b : ℚ) : EF.sub (.fin a) (.fin b) = .fin (a - b) := by
  simp [EF.sub, EF.neg, EF.add, sub_eq_add_neg]

/-- Simp lemma: EF multiplication on finite values. -/
theorem EF.mul_fin (a b : ℚ) : EF.mul (.fin a) (.fin b) = .fin (a * b) := rfl

/-- Simp lemma: EF division by a nonzero finite value. -/
theorem EF.div_fin (a b : ℚ) (hb : b ≠ 0) : EF.div (.fin a) (.fin b) = .fin (a / b) := by
  simp [EF.div, hb]

/-- C10: collided is symmetric: for all vertex sequences A and B,
collided A B = collided B A, because it is the conjunction of the same two
one-directional separating-axis checks in both orders. -/
theorem collided_symm (A B : List Position) : collided A B = collided B A := by
  simp [collided, Bool.and_comm]

/-- C5: collided returns false for the two triangles with disjoint bounding
extents, true for the two triangles sharing exactly one edge (boundary
touching counts as a collision), and true for the two triangles with
interior overlap, exactly as the source tests assert. -/
theorem collided_examples :
    collided T1 T2 = false ∧ collided T1 T3 = true ∧ collided T1 T4 = true := by
  refine ⟨?_, ?_, ?_⟩ <;> with_unfolding_all decide

/-- C1 is violated by the code: Engine::tick passes every body to
update_body_position without consulting the fixed flag, so a fixed body
under gravity 10 with dt 1 has its velocity changed to (0, -10) and its
single mesh vertex moved from (0, 0) to (0, -5). -/
theorem fixed_body_integrated :
    (Engine.tick fixedE (.fin 1)).bodies =
      [{ mass := .fin 0
         mesh := [pos (.fin 0) (.fin (-5))]
         acceleration := v (.fin 0) (.fin 0)
         velocity := v (.fin 0) (.fin (-10))
         fixed := true
         report_collision := false }] ∧
    (Engine.tick fixedE (.fin 1)).bodies ≠ fixedE.bodies := by
  refine ⟨?_, ?_⟩ <;> with_unfolding_all decide

/-- C2 is violated by the code: tick keeps a pair in its collisions list
exactly when check_for_separating_axis on the pair returns false, which for
the two disjoint test triangles holds in both orders, so the two bodies are
classified as colliding even though the two-pass SAT predicate collided is
false on their meshes. -/
theorem tick_collisions_not_sat :
    Engine.tick_collisions satE (.fin 0) = [(0, 1), (1, 0)] ∧ collided T1 T2 = false := by
  refine ⟨?_, ?_⟩ <;> with_unfolding_all decide

/-- C4 counterexample: applying a force to a body built by fixed_body does
divide by the zero mass and does change the acceleration: apply_force 1 0
turns the acceleration into (plus infinity, NaN). -/
theorem apply_force_fixed_divides :
    (fixedB.apply_force (.fin 1) (.fin 0)).acceleration = v .pinf .nan ∧
    (fixedB.apply_force (.fin 1) (.fin 0)).acceleration ≠ fixedB.acceleration := by
  refine ⟨?_, ?_⟩ <;> with_unfolding_all decide

/-- C4 amended: apply_force and set_resulting_force carry no fixed-body
guard; on a body built by fixed_body they divide the force components by
the zero mass, so the acceleration becomes exactly the IEEE quotients
fx / 0 and fy / 0 (an infinity for a nonzero component, NaN for a zero
component), accumulated or overwritten respectively. -/
theorem force_on_fixed_body (mesh : List Position) (fx fy : EF) :
    ((ConvexBody.fixed_body mesh).apply_force fx fy).acceleration =
      v (EF.add (.fin 0) (EF.div fx (.fin 0))) (EF.add (.fin 0) (EF.div fy (.fin 0))) ∧
    ((ConvexBody.fixed_body mesh).set_resulting_force fx fy).acceleration =
      v (EF.div fx (.fin 0)) (EF.div fy (.fin 0)) :=
  ⟨rfl, rfl⟩

/-- tuple_windows on a list of n elements yields n - 1 pairs. -/
theorem tuple_windows_length : (l : List α) → (tuple_windows l).length = l.length - 1
  | [] => rfl
  | [_] => rfl
  | x :: y :: xs => by
    have ih := tuple_windows_length (y :: xs)
    simp [tuple_windows] at ih ⊢
    omega

/-- The i-th pair of tuple_windows is the pair of the i-th and (i+1)-th
elements of the list. -/
theorem tuple_windows_get : (l : List α) → (i : Nat) → (a b : α) →
    l.get? i = some a → l.get? (i + 1) = some b →
    (tuple_windows l).get? i = some (a, b)
  | [], i, a, b, ha, _ => by simp at ha
  | [x], _, a, b, _, hb => by simp at hb
  | x :: y :: xs, 0, a, b, ha, hb => by
    simp at ha hb
    simp [tuple_windows, ha, hb]
  | x :: y :: xs, i + 1, a, b, ha, hb => by
    have ih := tuple_windows_get (y :: xs) i a b (by simpa using ha) (by simpa using hb)
    simpa [tuple_windows] using ih

/-- C8: for a terrain of at least two samples, partition_terrain yields one
quadrilateral per pair of consecutive samples p1, p2, namely
[p1, p2, (p2.x, p2.y - 10), (p1.x, p1.y - 10)], so n samples yield exactly
n - 1 quadrilaterals; for the 4-point test sequence it yields exactly the
three quadrilaterals of the source test. -/
theorem partition_terrain_spec (terrain : List Position) (h2 : 2 ≤ terrain.length)
    (i : Nat) (p1 p2 : Position)
    (h1 : terrain.get? i = some p1) (hp2 : terrain.get? (i + 1) = some p2) :
    (partition_terrain terrain).length = terrain.length - 1 ∧
    (partition_terrain terrain).get? i =
      some [p1, p2, pos p2.x (EF.sub p2.y (.fin 10)), pos p1.x (EF.sub p1.y (.fin 10))] ∧
    partition_terrain TERRAIN4 =
      [[pos (.fin 0) (.fin 5), pos (.fin 1) (.fin 6),
        pos (.fin 1) (.fin (-4)), pos (.fin 0) (.fin (-5))],
       [pos (.fin 1) (.fin 6), pos (.fin 2) (.fin 4),
        pos (.fin 2) (.fin (-6)), pos (.fin 1) (.fin (-4))],
       [pos (.fin 2) (.fin 4), pos (.fin 3) (.fin 4),
        pos (.fin 3) (.fin (-6)), pos (.fin 2) (.fin (-6))]] := by
  refine ⟨?_, ?_, ?_⟩
  · simp [partition_terrain, tuple_windows_length]
  · simp only [partition_terrain, List.get?_map,
      tuple_windows_get terrain i p1 p2 h1 hp2, Option.map_some']
  · with_unfolding_all decide

/-- Witness for C8 at the concrete 4-point terrain and index 0. -/
theorem partition_terrain_spec_witness :
    (partition_terrain TERRAIN4).get? 0 =
      some [pos (.fin 0) (.fin 5), pos (.fin 1) (.fin 6),
            pos (.fin 1) (.fin (-4)), pos (.fin 0) (.fin (-5))] := by
  have h := (partition_terrain_spec TERRAIN4 (by decide) 0
    (pos (.fin 0) (.fin 5)) (pos (.fin 1) (.fin 6)) rfl rfl).2.1
  with_unfolding_all exact h

/-- C9: the pairwise scan of tick never pairs a body with itself (every
index pair kept is of distinct indices), and an engine holding zero or one
body produces an empty collisions list. -/
theorem tick_no_self_collision (e : Engine) (dt : EF) :
    (∀ ij ∈ Engine.tick_collisions e dt, ij.fst ≠ ij.snd) ∧
    (e.bodies.length ≤ 1 → Engine.tick_collisions e dt = []) := by
  constructor
  · intro ij hij
    simp only [Engine.tick_collisions] at hij
    have h1 := (List.mem_filter.mp hij).1
    have h2 := (List.mem_filter.mp h1).2
    simpa using h2
  · intro h
    rcases e with ⟨bs, g⟩
    rcases bs with _ | ⟨b1, _ | ⟨b2, t⟩⟩
    · rfl
    · rfl
    · simp at h

/-- Witness for C9 at a one-body engine. -/
theorem tick_no_self_collision_witness :
    Engine.tick_collisions oneBodyE (.fin 1) = [] :=
  (tick_no_self_collision oneBodyE (.fin 1)).2 (by decide)

/-- apply_forces changes only the acceleration of a body: every other field
keeps its value. -/
theorem apply_forces_fields (b : ConvexBody) (fs : List (EF × EF)) :
    (apply_forces b fs).mass = b.mass ∧ (apply_forces b fs).mesh = b.mesh ∧
    (apply_forces b fs).velocity = b.velocity ∧ (apply_forces b fs).fixed = b.fixed ∧
    (apply_forces b fs).report_collision = b.report_collision := by
  induction fs generalizing b with
  | nil => exact ⟨rfl, rfl, rfl, rfl, rfl⟩
  | cons f fs ih =>
    have h := ih (b.apply_force f.fst f.snd)
    simpa [apply_forces, ConvexBody.apply_force] using h

/-- C6: for a non-fixed body of positive mass, set_resulting_force after any
prior sequence of apply_force calls yields the same body as if the forces
had never been applied: the acceleration is overwritten to exactly
(fx / mass, fy / mass), and a subsequent integration step is identical to
one after set_resulting_force on the pristine body. -/
theorem set_resulting_force_overwrites (b0 : ConvexBody) (fs : List (EF × EF))
    (fx fy ga dt : EF)
    (hm : EF.lt (.fin 0) b0.mass = true) (hfix : b0.fixed = false) :
    (apply_forces b0 fs).set_resulting_force fx fy = b0.set_resulting_force fx fy ∧
    ((apply_forces b0 fs).set_resulting_force fx fy).acceleration =
      v (EF.div fx b0.mass) (EF.div fy b0.mass) ∧
    Engine.update_body_position ((apply_forces b0 fs).set_resulting_force fx fy) ga dt =
      Engine.update_body_position (b0.set_resulting_force fx fy) ga dt := by
  obtain ⟨h1, h2, h3, h4, h5⟩ := apply_forces_fields b0 fs
  have key : (apply_forces b0 fs).set_resulting_force fx fy = b0.set_resulting_force fx fy := by
    simp only [ConvexBody.set_resulting_force, h1, h2, h3, h4, h5]
  exact ⟨key, by rw [key]; rfl, by rw [key]⟩

/-- Witness for C6: mass 10, two prior apply_force calls, then
set_resulting_force 0 100 leaves acceleration (0, 10). -/
theorem set_resulting_force_overwrites_witness :
    ((apply_forces (ConvexBody.still_body (.fin 10) [pos (.fin 0) (.fin 0)])
        [(.fin 100, .fin 0), (.fin 0, .fin 100)]).set_resulting_force
      (.fin 0) (.fin 100)).acceleration = v (.fin 0) (.fin 10) := by
  have h := (set_resulting_force_overwrites
    (ConvexBody.still_body (.fin 10) [pos (.fin 0) (.fin 0)])
    [(.fin 100, .fin 0), (.fin 0, .fin 100)] (.fin 0) (.fin 100) (.fin 10) (.fin 1)
    (by with_unfolding_all decide) rfl).2.1
  with_unfolding_all exact h

/-- C3: tick sets the velocity of a non-fixed body to v1 = v0 + a*dt with
a = (acceleration.x, acceleration.y - ga), translates every mesh vertex by
s = (dt/2) * (v1 + v0), and leaves the acceleration (and every other field)
unchanged; on the concrete still body of mass 10 under gravity 10 with
dt = 1, the first tick moves y from 100 to 95 (down by exactly 5) and the
second tick moves it to 80 (cumulative displacement exactly 20 down). -/
theorem tick_integrates (e : Engine) (dt : EF) (i : Nat) (b : ConvexBody)
    (hb : e.bodies.get? i = some b) (hfix : b.fixed = false) :
    (Engine.tick e dt).bodies.get? i = some
      { b with
          velocity := v (EF.add b.velocity.x (EF.mul b.acceleration.x dt))
                        (EF.add b.velocity.y (EF.mul (EF.sub b.acceleration.y e.ga) dt))
          mesh := b.mesh.map fun p =>
            pos (EF.add p.x (EF.mul (EF.div dt (.fin 2))
                  (EF.add (EF.add b.velocity.x (EF.mul b.acceleration.x dt)) b.velocity.x)))
                (EF.add p.y (EF.mul (EF.div dt (.fin 2))
                  (EF.add (EF.add b.velocity.y (EF.mul (EF.sub b.acceleration.y e.ga) dt))
                    b.velocity.y))) } ∧
    (Engine.tick stillE (.fin 1)).bodies.map ConvexBody.mesh = [[pos (.fin 100) (.fin 95)]] ∧
    (Engine.tick (Engine.tick stillE (.fin 1)) (.fin 1)).bodies.map ConvexBody.mesh
      = [[pos (.fin 100) (.fin 80)]] := by
  refine ⟨?_, ?_, ?_⟩
  · simp only [Engine.tick, List.get?_map, hb, Option.map_some']
    rfl
  · with_unfolding_all decide
  · with_unfolding_all decide

/-- Witness for C3 at the concrete still body of stillE. -/
theorem tick_integrates_witness :
    (Engine.tick stillE (.fin 1)).bodies.get? 0 = some
      { mass := .fin 10
        mesh := [pos (.fin 100) (.fin 95)]
        acceleration := v (.fin 0) (.fin 0)
        velocity := v (.fin 0) (.fin (-10))
        fixed := false
        report_collision := false } := by
  have h := (tick_integrates stillE (.fin 1) 0
    (ConvexBody.still_body (.fin 10) [pos (.fin 100) (.fin 100)]) rfl rfl).1
  with_unfolding_all exact h

/-- C7: project is total with exactly three regimes: an infinite gradient
projects any point to (0, y); a finite gradient of magnitude below machine
epsilon projects to (x, 0); any other finite gradient q projects a finite
point to the algebraic intersection of the line y = q*x with the
perpendicular through the point, namely x = (px + q*py)/(1 + q^2) and
y = q*x; and in particular project (5,0) 0 = (5,0), project (0,5) 0 = (0,0)
and project (2,0) 1 = (1,1). -/
theorem project_regimes (p : Position) (g : EF) (px py q : ℚ)
    (hp : p = pos (.fin px) (.fin py)) (hg : g = .fin q) (hq : EPSILON ≤ |q|) :
    (∀ p2 : Position, project p2 .pinf = pos (.fin 0) p2.y) ∧
    (∀ p2 : Position, project p2 .ninf = pos (.fin 0) p2.y) ∧
    (∀ (p2 : Position) (g2 : ℚ), |g2| < EPSILON → project p2 (.fin g2) = pos p2.x (.fin 0)) ∧
    project p g = pos (.fin ((px + q * py) / (1 + q ^ 2)))
                      (.fin (q * ((px + q * py) / (1 + q ^ 2)))) ∧
    project (pos (.fin 5) (.fin 0)) (.fin 0) = pos (.fin 5) (.fin 0) ∧
    project (pos (.fin 0) (.fin 5)) (.fin 0) = pos (.fin 0) (.fin 0) ∧
    project (pos (.fin 2) (.fin 0)) (.fin 1) = pos (.fin 1) (.fin 1) := by
  subst hp
  subst hg
  have hq0 : q ≠ 0 := by
    intro h
    rw [h] at hq
    norm_num [EPSILON] at hq
  have hsq : (1 : ℚ) + q ^ 2 ≠ 0 := by positivity
  have hden : -1 / q - q ≠ 0 := by
    intro h
    have h2 : (-1 : ℚ) - q * q = 0 := by
      field_simp at h
      linarith [h]
    nlinarith [sq_nonneg q]
  refine ⟨fun p2 => rfl, fun p2 => rfl, ?_, ?_, ?_, ?_, ?_⟩
  · intro p2 g2 h
    simp [project, EF.isInfinite, EF.abs, EF.lt, h]
  · have hnlt : EF.lt (EF.abs (.fin q)) (.fin EPSILON) = false := by
      simp [EF.abs, EF.lt, not_lt.mpr hq]
    simp only [project, EF.isInfinite, hnlt, Bool.false_eq_true, if_false,
      EF.div_fin _ _ hq0, EF.mul_fin, EF.sub_fin, EF.neg_fin,
      EF.div_fin _ _ hden, pos]
    have hx : (-(py - -1 / q * px)) / (-1 / q - q) = (px + q * py) / (1 + q ^ 2) := by
      rw [div_eq_div_iff hden hsq]
      field_simp
      ring
    rw [hx]
  · with_unfolding_all decide
  · with_unfolding_all decide
  · with_unfolding_all decide

/-- Witness for C7 at the point (2, 0) and gradient 1. -/
theorem project_regimes_witness :
    project (pos (.fin 2) (.fin 0)) (.fin 1) =
      pos (.fin ((2 + 1 * 0) / (1 + 1 ^ 2))) (.fin (1 * ((2 + 1 * 0) / (1 + 1 ^ 2)))) :=
  (project_regimes (pos (.fin 2) (.fin 0)) (.fin 1) 2 0 1 rfl rfl
    (by with_unfolding_all decide)).2.2.2.1

end Fma
